import Mathlib

/-!
Verification of the WrenAI demo front-end module
(`wren-ai-service/demo/utils.py`): a shallow embedding in Lean 4 of the
module's polling protocol, final-status handling, SQL quoting wrapper,
cumulative CTE SQL construction, user-correction merging, HTTP
status-code checking, and the regeneration payload builder, together
with theorems settling the specification's claims about them.
-/

namespace WrenDemo

/-! ## Polled asynchronous operations: final-status handling

Each asynchronous AI-service call (`ask`, `ask_details`,
`sql_explanation`, `sql_regeneration`, `get_sql_answer`) polls a status
endpoint and then branches on the final status response.  We embed the
final status response as a record of the JSON fields the module reads,
and each operation's post-loop branch as a function from that record to
an outcome. -/

/-- The JSON fields of a final status response that the module reads:
`status`, `type` (present for asks results; named `rtype` here since
`type` is reserved), the designated result payload `response` (kept
opaque as a string of bytes), and the `error` message field. -/
structure StatusResponse where
  status : String
  rtype : String
  response : String
  error : String
deriving DecidableEq, Repr

/-- What an operation does after its polling loop ends. -/
inductive OpOutcome where
  /-- The designated result field of the final status response is
  stored/returned unmodified. -/
  | result (payload : String)
  /-- The result is delivered by consuming a separate SSE stream; no
  field of the final status response is extracted. -/
  | streamed
  /-- Only the result-type tag is stored (the `else` branch of `ask`). -/
  | storedType (t : String)
  /-- A user-facing error notification with the given message is shown
  (`st.error`); the operation yields no result. -/
  | errorShown (msg : String)
  /-- Nothing happens: no result, no notification. -/
  | noAction
deriving DecidableEq, Repr

/-- The error notification text used by every operation: the fixed
text `An error occurred while processing the query: ` followed by the
error field of the final status response, so the remote error message
appears verbatim after fixed leading text. -/
def errorText (e : String) : String :=
  "An error occurred while processing the query: " ++ e

/-- `ask` after its polling loop (utils.py lines 681-693): on
`finished`, branch on the `type` field — `GENERAL` streams,
`TEXT_TO_SQL` stores the `response` field, anything else stores the
type tag; on `failed`, show the error; on `stopped`, nothing. -/
def ask_handle_final (r : StatusResponse) : OpOutcome :=
  if r.status = "finished" then
    if r.rtype = "GENERAL" then OpOutcome.streamed
    else if r.rtype = "TEXT_TO_SQL" then OpOutcome.result r.response
    else OpOutcome.storedType r.rtype
  else if r.status = "failed" then OpOutcome.errorShown (errorText r.error)
  else OpOutcome.noAction

/-- `ask_details` after its polling loop (utils.py lines 797-809). -/
def ask_details_handle_final (r : StatusResponse) : OpOutcome :=
  if r.status = "finished" then OpOutcome.result r.response
  else if r.status = "failed" then OpOutcome.errorShown (errorText r.error)
  else OpOutcome.noAction

/-- `sql_explanation` after its polling loop (utils.py lines 838-845). -/
def sql_explanation_handle_final (r : StatusResponse) : OpOutcome :=
  if r.status = "finished" then OpOutcome.result r.response
  else if r.status = "failed" then OpOutcome.errorShown (errorText r.error)
  else OpOutcome.noAction

/-- `sql_regeneration` after its polling loop (utils.py lines 869-876). -/
def sql_regeneration_handle_final (r : StatusResponse) : OpOutcome :=
  if r.status = "finished" then OpOutcome.result r.response
  else if r.status = "failed" then OpOutcome.errorShown (errorText r.error)
  else OpOutcome.noAction

/-- `get_sql_answer` after its polling loop (utils.py lines 764-770):
on `succeeded` the answer is streamed (`display_sql_answer`), no field
of the final status response is extracted; on `failed`, show the
error. -/
def get_sql_answer_handle_final (r : StatusResponse) : OpOutcome :=
  if r.status = "succeeded" then OpOutcome.streamed
  else if r.status = "failed" then OpOutcome.errorShown (errorText r.error)
  else OpOutcome.noAction

/-- The five polled asynchronous operations of the module. -/
inductive PolledOp where
  | ask
  | askDetails
  | sqlExplanation
  | sqlRegeneration
  | sqlAnswer
deriving DecidableEq, Repr

/-- Dispatch to the operation's final-status handler. -/
def handleFinal : PolledOp → StatusResponse → OpOutcome
  | PolledOp.ask, r => ask_handle_final r
  | PolledOp.askDetails, r => ask_details_handle_final r
  | PolledOp.sqlExplanation, r => sql_explanation_handle_final r
  | PolledOp.sqlRegeneration, r => sql_regeneration_handle_final r
  | PolledOp.sqlAnswer, r => get_sql_answer_handle_final r

/-- The designated success status of each operation's loop condition. -/
def successStatus : PolledOp → String
  | PolledOp.ask => "finished"
  | PolledOp.askDetails => "finished"
  | PolledOp.sqlExplanation => "finished"
  | PolledOp.sqlRegeneration => "finished"
  | PolledOp.sqlAnswer => "succeeded"

/-- The terminal status set of each operation's loop condition, as
written in the source. -/
def terminalStatuses : PolledOp → List String
  | PolledOp.ask => ["finished", "failed", "stopped"]
  | PolledOp.askDetails => ["finished", "failed"]
  | PolledOp.sqlExplanation => ["finished", "failed"]
  | PolledOp.sqlRegeneration => ["finished", "failed"]
  | PolledOp.sqlAnswer => ["succeeded", "failed"]

/-- The failure set: terminal statuses other than the success value. -/
def failureStatuses (op : PolledOp) : List String :=
  (terminalStatuses op).filter (fun s => s ≠ successStatus op)

/-- Membership test in an operation's terminal set, as the Boolean
disjunction each loop guard spells out. -/
def isTerminalStatus (op : PolledOp) (s : String) : Bool :=
  (terminalStatuses op).contains s

/-- Sample remote status sequence used to evaluate the polling loop on
a concrete run: two in-progress polls, then `finished` forever. -/
def demoStatuses (n : Nat) : String :=
  if n < 2 then "understanding" else "finished"

/-! ## The SQL quoting wrapper `add_quotes` (utils.py lines 33-38)

Modelled from the spec: the external sqlglot trino dialect
parser/transpiler (a third-party library whose code is not part of this
repository) is abstracted as a function `transpile : String → Option
String`, where `none` models the exception raised on a parse failure,
together with the dialect's acceptance predicate `parses`.  The spec
describes the utility as rewriting raw SQL into dialect-safe quoted SQL
with a success flag that is false exactly when the dialect parser
rejects the input. -/

/-- Embedding of `add_quotes`: try to transpile with identifier
quoting; on an exception (`none`) return the original SQL with flag
`false`, otherwise the quoted SQL with flag `true`. -/
def add_quotes (transpile : String → Option String) (sql : String) : String × Bool :=
  match transpile sql with
  | some quoted_sql => (quoted_sql, true)
  | none => (sql, false)

/-! ## Cumulative CTE SQL construction

The loop bodies in `show_asks_details_results` (utils.py lines 256-274)
and `show_sql_regeneration_results_dialog` (lines 897-913) build, for
each step, the SQL to render: an optional WITH clause over the
accumulated prior CTE entries followed by the step's own fragment. -/

/-- One step of an AskDetailsResult: a CTE name, a SQL fragment and a
natural-language summary. -/
structure Step where
  cte_name : String
  sql : String
  summary : String
deriving DecidableEq, Repr

/-- The entry appended to `sqls_with_cte` for a step: the CTE name,
then ` AS ( `, then the SQL fragment, then ` )`. -/
def cte_entry (s : Step) : String :=
  s.cte_name ++ " AS ( " ++ s.sql ++ " )"

/-- The SQL rendered for one step given the accumulated CTE entries:
start from the empty string, add `"WITH " + ",\n".join(sqls_with_cte) +
"\n\n"` when the accumulator is non-empty, then add the step's own
fragment. -/
def render_step_sql (sqls_with_cte : List String) (step_sql : String) : String :=
  (if sqls_with_cte.isEmpty then ""
   else "WITH " ++ String.intercalate ",\n" sqls_with_cte ++ "\n\n") ++ step_sql

/-- The loop over steps: collect each step's rendered SQL into `sqls`
while accumulating its CTE entry into `sqls_with_cte`. -/
def build_step_sqls (sqls_with_cte : List String) : List Step → List String
  | [] => []
  | st :: rest =>
      render_step_sql sqls_with_cte st.sql ::
        build_step_sqls (sqls_with_cte ++ [cte_entry st]) rest

/-! ## User corrections (`on_change_user_correction`, utils.py lines 426-496) -/

/-- A decision point: the `{"type": ..., "value": ...}` dict built by
`_get_decision_point`.  The value is kept opaque as a string. -/
structure DecisionPoint where
  dtype : String
  value : String
deriving DecidableEq, Repr

/-- The fields of an explanation result read by
`_get_decision_point`: the discriminator `type` and the payload fields
used by each branch (each kept opaque as a string). -/
structure ExplanationResult where
  etype : String
  payload_type : String
  payload_tableName : String
  payload_criteria : String
  payload_expression : String
  payload_keys : String
deriving DecidableEq, Repr

/-- Embedding of the inner `_get_decision_point` helper: dispatch on
the explanation result's `type`, extracting the payload field that
identifies the decision point; unmatched shapes fall through to `none`
(Python returns `None`). -/
def _get_decision_point (er : ExplanationResult) : Option DecisionPoint :=
  if er.etype = "relation" then
    if er.payload_type = "TABLE" then
      some ⟨er.etype, er.payload_tableName⟩
    else if er.payload_type.endsWith "_JOIN" then
      some ⟨er.etype, er.payload_criteria⟩
    else none
  else if er.etype = "filter" then some ⟨er.etype, er.payload_expression⟩
  else if er.etype = "groupByKeys" then some ⟨er.etype, er.payload_keys⟩
  else if er.etype = "sortings" then some ⟨er.etype, er.payload_expression⟩
  else if er.etype = "selectItems" then some ⟨er.etype, er.payload_expression⟩
  else none

/-- An `after` value: the `{"type": "nl_expression", "value": ...}`
dict built from the text input. -/
structure AfterValue where
  atype : String
  value : String
deriving DecidableEq, Repr

/-- Builds the `after` dict from the user's input text. -/
def nl_expression (input : String) : AfterValue :=
  ⟨"nl_expression", input⟩

/-- A user correction entry `{"before": ..., "after": ...}`; `before`
is the decision point computed by `_get_decision_point` (possibly
`None`). -/
structure Correction where
  before : Option DecisionPoint
  after : AfterValue
deriving DecidableEq, Repr

/-- Embedding of the merge loop of `on_change_user_correction` on one
step's correction list: scan for the first entry whose `before` equals
the decision point; if found, a non-empty input replaces its `after`
and an empty input pops the entry (and the scan breaks); if no entry
matches, append a new `{"before": dp, "after": nl_expression input}`
at the end. -/
def on_change_user_correction (corrections : List Correction)
    (decision_point : Option DecisionPoint) (input : String) : List Correction :=
  match corrections with
  | [] => [⟨decision_point, nl_expression input⟩]
  | c :: rest =>
      if c.before = decision_point then
        if input ≠ "" then { c with after := nl_expression input } :: rest
        else rest
      else c :: on_change_user_correction rest decision_point input

/-- First correction entry for a given `before` value, as an
association-list lookup; used to state the merge properties. -/
def lookupCorrection (corrections : List Correction)
    (decision_point : Option DecisionPoint) : Option AfterValue :=
  match corrections with
  | [] => none
  | c :: rest =>
      if c.before = decision_point then some c.after
      else lookupCorrection rest decision_point

/-! ## The polling loop (utils.py lines 665-679, 751-762, 786-795, 827-836, 858-867)

Every polled operation runs the same loop shape: fetch the status,
emit a transient toast, sleep `POLLING_INTERVAL`, and repeat while the
status is falsy or not in the terminal set.  We embed the remote
service as a sequence `statuses : Nat → String` (the status value
returned by the k-th GET) and run the loop on fuel, recording the
number of GET requests issued, the sleep durations in order, and the
index of the terminating status, if any. -/

/-- `POLLING_INTERVAL = 0.5` (utils.py line 22). -/
def POLLING_INTERVAL : ℚ := 1 / 2

/-- Trace of one polling loop run: number of status GETs issued, the
sleep durations in order, and the index of the status response on
which the loop exited (`none` when the fuel ran out first). -/
structure PollTrace where
  polls : Nat
  sleeps : List ℚ
  result : Option Nat
deriving DecidableEq, Repr

/-- The loop's exit condition on one status value: the `while` guard
`not status or status not-in terminal` keeps looping on a falsy (empty)
string, so the loop exits exactly when the status is non-empty and in
the terminal set. -/
def pollExit (isTerminal : String → Bool) (s : String) : Bool :=
  if s = "" then false else isTerminal s

/-- Embedding of the polling loop: each iteration issues one status
GET, sleeps `POLLING_INTERVAL`, and stops when the exit condition
holds on the fetched status.  Fuel bounds the number of iterations we
unfold; the code itself has no bound. -/
def pollLoop (isTerminal : String → Bool) (statuses : Nat → String) :
    Nat → Nat → PollTrace
  | 0, _ => ⟨0, [], none⟩
  | fuel + 1, k =>
      if pollExit isTerminal (statuses k) then
        ⟨1, [POLLING_INTERVAL], some k⟩
      else
        let rest := pollLoop isTerminal statuses fuel (k + 1)
        ⟨rest.polls + 1, POLLING_INTERVAL :: rest.sleeps, rest.result⟩

/-! ## Streaming-text consumer (utils.py lines 696-721)

`display_general_response` and `display_sql_answer` share one body:
open an SSE stream, and for each event append the JSON payload's
`message` field to `markdown_content` and render the buffer. -/

/-- One server-sent event, reduced to the `message` field of its JSON
payload (the only field the module reads). -/
structure SseEvent where
  message : String
deriving DecidableEq, Repr

/-- Embedding of the event loop shared by `display_general_response`
and `display_sql_answer`: starting from the accumulated
`markdown_content`, append each event's `message` in arrival order and
record the buffer rendered after each event.  The returned list is the
sequence of rendered buffers; it ends with the (finite) event list. -/
def display_response_stream (markdown_content : String) :
    List SseEvent → List String
  | [] => []
  | e :: rest =>
      (markdown_content ++ e.message) ::
        display_response_stream (markdown_content ++ e.message) rest

/-! ## HTTP status-code checking

Each request site in the module either follows its call with
`assert response.status_code == 200` or does not.  We enumerate the
module's request sites and embed each site's status handling. -/

/-- An HTTP response, reduced to its status code. -/
structure HttpResponse where
  status_code : Nat
deriving DecidableEq, Repr

/-- Every HTTP request site in utils.py, one constructor per
`requests.*` call (the two SSE streams go through `with_requests`). -/
inductive RequestSite where
  /-- PATCH /v1/config in `_update_wren_engine_configs` (line 59). -/
  | configPatch
  /-- GET /v1/mdl/preview in `get_data_from_wren_engine` (line 132). -/
  | mdlPreviewGet
  /-- POST /v2/connector/{type}/query in `get_data_from_wren_engine` (line 155). -/
  | connectorQueryPost
  /-- GET /v1/analysis/sql in `get_sql_analysis_results` (line 386). -/
  | analysisSqlGet
  /-- POST /v1/semantics-descriptions in `generate_mdl_metadata` (line 525). -/
  | semanticsDescriptionsPost
  /-- PUT /v1/data-source/duckdb/settings/init-sql in `_prepare_duckdb` (line 581). -/
  | duckdbInitSqlPut
  /-- POST /v1/semantics-preparations in `prepare_semantics` (line 609). -/
  | semanticsPreparationsPost
  /-- GET /v1/semantics-preparations/{id}/status in `prepare_semantics` (line 626). -/
  | semanticsPreparationsStatusGet
  /-- POST /v1/asks in `ask` (line 651). -/
  | asksPost
  /-- GET /v1/asks/{id}/result in `ask` (line 672). -/
  | asksResultGet
  /-- GET /v1/asks/{id}/streaming-result via `with_requests` in `display_general_response` (line 699). -/
  | asksStreamingResultGet
  /-- POST /v1/sql-answers in `get_sql_answer` (line 737). -/
  | sqlAnswersPost
  /-- GET /v1/sql-answers/{id} in `get_sql_answer` (line 756). -/
  | sqlAnswersStatusGet
  /-- GET /v1/sql-answers/{id}/streaming via `with_requests` in `display_sql_answer` (line 713). -/
  | sqlAnswersStreamingGet
  /-- POST /v1/ask-details in `ask_details` (line 774). -/
  | askDetailsPost
  /-- GET /v1/ask-details/{id}/result in `ask_details` (line 789). -/
  | askDetailsResultGet
  /-- POST /v1/sql-explanations in `sql_explanation` (line 813). -/
  | sqlExplanationsPost
  /-- GET /v1/sql-explanations/{id}/result in `sql_explanation` (line 830). -/
  | sqlExplanationsResultGet
  /-- POST /v1/sql-regenerations in `sql_regeneration` (line 849). -/
  | sqlRegenerationsPost
  /-- GET /v1/sql-regenerations/{id}/result in `sql_regeneration` (line 861). -/
  | sqlRegenerationsResultGet
deriving DecidableEq, Repr

/-- Embedding of `assert response.status_code == 200`: pass the
response through on 200, raise otherwise. -/
def assertStatus200 (r : HttpResponse) : Except String HttpResponse :=
  if r.status_code = 200 then Except.ok r else Except.error "UnexpectedStatus"

/-- Status handling at each request site, as written in the source:
every site asserts `status_code == 200` except the
semantics-preparation status poll (no assertion follows the GET on
lines 626-631) and the two SSE streaming GETs (`with_requests` never
checks the status code), which pass any response through. -/
def siteHandle : RequestSite → HttpResponse → Except String HttpResponse
  | RequestSite.configPatch, r => assertStatus200 r
  | RequestSite.mdlPreviewGet, r => assertStatus200 r
  | RequestSite.connectorQueryPost, r => assertStatus200 r
  | RequestSite.analysisSqlGet, r => assertStatus200 r
  | RequestSite.semanticsDescriptionsPost, r => assertStatus200 r
  | RequestSite.duckdbInitSqlPut, r => assertStatus200 r
  | RequestSite.semanticsPreparationsPost, r => assertStatus200 r
  | RequestSite.semanticsPreparationsStatusGet, r => Except.ok r
  | RequestSite.asksPost, r => assertStatus200 r
  | RequestSite.asksResultGet, r => assertStatus200 r
  | RequestSite.asksStreamingResultGet, r => Except.ok r
  | RequestSite.sqlAnswersPost, r => assertStatus200 r
  | RequestSite.sqlAnswersStatusGet, r => assertStatus200 r
  | RequestSite.sqlAnswersStreamingGet, r => Except.ok r
  | RequestSite.askDetailsPost, r => assertStatus200 r
  | RequestSite.askDetailsResultGet, r => assertStatus200 r
  | RequestSite.sqlExplanationsPost, r => assertStatus200 r
  | RequestSite.sqlExplanationsResultGet, r => assertStatus200 r
  | RequestSite.sqlRegenerationsPost, r => assertStatus200 r
  | RequestSite.sqlRegenerationsResultGet, r => assertStatus200 r

/-! ## Regeneration payload construction (`on_click_sql_regeneration_button`, utils.py lines 499-515)

The handler builds `sql_regeneration_data = copy.deepcopy(ask_details_results)`
and then mutates the copy's steps in place, attaching each step's
correction list.  Python objects are aliased references, so to state
the frame property faithfully we model a heap of AskDetailsResult
objects addressed by natural-number references: `deepcopy` allocates a
fresh reference holding an equal value, and the in-place writes go
through the copied reference. -/

/-- One step of an AskDetailsResult as the handler sees it: the
service-produced fields plus the optional `corrections` key, absent
(`none`) until the handler writes it. -/
structure AdrStep where
  cte_name : String
  sql : String
  summary : String
  corrections : Option (List Correction)
deriving DecidableEq, Repr

/-- An AskDetailsResult: a description and an ordered list of steps. -/
structure AskDetailsResult where
  description : String
  steps : List AdrStep
deriving DecidableEq, Repr

/-- Placeholder object used for out-of-range heap reads (never reached
on valid references). -/
def defaultAdr : AskDetailsResult := ⟨"", []⟩

/-- A heap of AskDetailsResult objects; references are list indices. -/
abbrev Heap : Type := List AskDetailsResult

/-- Heap read through a reference. -/
def heapGet (h : Heap) (r : Nat) : AskDetailsResult :=
  List.getD h r defaultAdr

/-- Heap write through a reference. -/
def heapSet (h : Heap) (r : Nat) (v : AskDetailsResult) : Heap :=
  List.set h r v

/-- Embedding of `copy.deepcopy`: allocate a fresh reference holding a
value equal to the source object's, sharing nothing with it. -/
def deepcopy (h : Heap) (r : Nat) : Heap × Nat :=
  (h ++ [heapGet h r], List.length h)

/-- Sets `steps[i]["corrections"] = cs` on one AskDetailsResult value
(the in-place dict write of the loop body). -/
def setStepCorrections (adr : AskDetailsResult) (i : Nat)
    (cs : List Correction) : AskDetailsResult :=
  match List.get? adr.steps i with
  | some st => { adr with steps := List.set adr.steps i { st with corrections := some cs } }
  | none => adr

/-- The handler's loop over `zip(sql_regeneration_data["steps"],
sql_user_corrections_by_step)`: for each index within both lists,
write the step's correction list (the source writes
`sql_user_corrections` when truthy and `[]` otherwise) through the
copied reference. -/
def regenLoop (dataRef : Nat) : Heap → Nat → List (List Correction) → Heap
  | h, _, [] => h
  | h, i, cs :: rest =>
      if i < (heapGet h dataRef).steps.length then
        regenLoop dataRef
          (heapSet h dataRef
            (setStepCorrections (heapGet h dataRef) i
              (if cs.isEmpty then [] else cs)))
          (i + 1) rest
      else h

/-- Embedding of `on_click_sql_regeneration_button` up to the request
submission: deep-copy the AskDetailsResult object, attach the
per-step corrections to the copy, and return the heap together with
the reference to the built payload. -/
def on_click_sql_regeneration_button (h : Heap) (adrRef : Nat)
    (sql_user_corrections_by_step : List (List Correction)) : Heap × Nat :=
  let copied := deepcopy h adrRef
  (regenLoop copied.2 copied.1 0 sql_user_corrections_by_step, copied.2)

/-- Pure description of the loop's effect on the copied value: the
same per-step correction writes applied directly to an
AskDetailsResult value. -/
def setCorrsFrom : AskDetailsResult → Nat → List (List Correction) → AskDetailsResult
  | adr, _, [] => adr
  | adr, i, cs :: rest =>
      if i < adr.steps.length then
        setCorrsFrom (setStepCorrections adr i (if cs.isEmpty then [] else cs))
          (i + 1) rest
      else adr

/-- Sample dialect acceptance predicate used to evaluate the quoting
wrapper on a concrete run: accepts every non-empty string. -/
def demoParses (s : String) : Bool :=
  !s.isEmpty

/-- Sample dialect transpiler matching `demoParses`: succeeds (keeping
the SQL as is) exactly on accepted inputs. -/
def demoTranspile (s : String) : Option String :=
  if s.isEmpty then none else some s

/-! # Theorems -/

/-- C1: the claim as stated — that on the designated success status,
every one of the five polled operations returns exactly the `response`
field of the final status response — is false: `get_sql_answer` on
`succeeded` streams the answer from a separate SSE endpoint and
extracts no field of the final status response. -/
theorem success_result_extraction_counterexample :
    ¬ (∀ (op : PolledOp) (r : StatusResponse),
        r.status = successStatus op →
        handleFinal op r = OpOutcome.result r.response) := by
  intro h
  exact absurd
    (h PolledOp.sqlAnswer { status := "succeeded", rtype := "", response := "payload", error := "" } rfl)
    (by decide)

/-- C1 (amended): on the success status, `ask_details`,
`sql_explanation` and `sql_regeneration` always return exactly the
`response` field of the final status response unmodified, and `ask`
does so exactly when the result type is `TEXT_TO_SQL`; `ask` on
`GENERAL` and `get_sql_answer` on `succeeded` instead deliver the
result by streaming. -/
theorem success_result_extraction_amended (rtype response err : String) :
    handleFinal PolledOp.askDetails
        { status := "finished", rtype := rtype, response := response, error := err }
      = OpOutcome.result response
    ∧ handleFinal PolledOp.sqlExplanation
        { status := "finished", rtype := rtype, response := response, error := err }
      = OpOutcome.result response
    ∧ handleFinal PolledOp.sqlRegeneration
        { status := "finished", rtype := rtype, response := response, error := err }
      = OpOutcome.result response
    ∧ handleFinal PolledOp.ask
        { status := "finished", rtype := "TEXT_TO_SQL", response := response, error := err }
      = OpOutcome.result response
    ∧ handleFinal PolledOp.ask
        { status := "finished", rtype := "GENERAL", response := response, error := err }
      = OpOutcome.streamed
    ∧ handleFinal PolledOp.sqlAnswer
        { status := "succeeded", rtype := rtype, response := response, error := err }
      = OpOutcome.streamed := by
  refine ⟨?_, ?_, ?_, ?_, ?_, ?_⟩ <;>
    simp [handleFinal, ask_handle_final, ask_details_handle_final,
      sql_explanation_handle_final, sql_regeneration_handle_final,
      get_sql_answer_handle_final]

/-- Concrete run of the amended C1 theorem: ask-details on `finished`
returns the response payload unmodified. -/
theorem success_result_extraction_amended_witness :
    handleFinal PolledOp.askDetails
        { status := "finished", rtype := "t", response := "RESP", error := "e" }
      = OpOutcome.result "RESP" :=
  (success_result_extraction_amended "t" "RESP" "e").1

/-- C2: the claim as stated — that on every terminal status in the
failure set the operation yields no result and shows a notification
carrying the remote error field — is false for `ask` on `stopped`:
the `if finished / elif failed` chain has no `stopped` branch, so no
notification of any kind is emitted there. -/
theorem failure_notification_counterexample :
    ¬ (∀ (op : PolledOp) (r : StatusResponse),
        r.status ∈ failureStatuses op →
        (∀ p, handleFinal op r ≠ OpOutcome.result p)
          ∧ handleFinal op r = OpOutcome.errorShown (errorText r.error)) := by
  intro h
  exact absurd
    (h PolledOp.ask { status := "stopped", rtype := "", response := "", error := "boom" }
      (by decide)).2
    (by decide)

/-- C2 (amended): on `failed`, every polled operation yields no result
and shows the notification consisting of the fixed text
`An error occurred while processing the query: ` followed by the
remote `error` field verbatim; on `stopped` (terminal only for `ask`)
the operation yields no result and emits no notification at all. -/
theorem failure_notification_amended (op : PolledOp) (rtype response err : String) :
    handleFinal op { status := "failed", rtype := rtype, response := response, error := err }
      = OpOutcome.errorShown (errorText err)
    ∧ (∀ p, handleFinal op
        { status := "failed", rtype := rtype, response := response, error := err }
        ≠ OpOutcome.result p)
    ∧ handleFinal PolledOp.ask
        { status := "stopped", rtype := rtype, response := response, error := err }
      = OpOutcome.noAction := by
  cases op <;>
    simp [handleFinal, ask_handle_final, ask_details_handle_final,
      sql_explanation_handle_final, sql_regeneration_handle_final,
      get_sql_answer_handle_final]

/-- Concrete run of the amended C2 theorem: ask on `failed` shows the
notification carrying the remote error text verbatim. -/
theorem failure_notification_amended_witness :
    handleFinal PolledOp.ask
        { status := "failed", rtype := "t", response := "r", error := "oops" }
      = OpOutcome.errorShown (errorText "oops") :=
  (failure_notification_amended PolledOp.ask "t" "r" "oops").1

/-- C8: the claim as stated — that every HTTP request issued by the
module asserts a 200 status code and processes no response with any
other code — is false: the semantics-preparation status poll reads the
`status` field of its GET response with no status-code assertion, and
the two SSE streaming GETs consume the stream unchecked. -/
theorem status_check_counterexample :
    ¬ (∀ (s : RequestSite) (r : HttpResponse), r.status_code ≠ 200 →
        siteHandle s r = Except.error "UnexpectedStatus") := by
  intro h
  exact absurd
    (h RequestSite.semanticsPreparationsStatusGet { status_code := 500 } (by decide))
    (by simp [siteHandle])

/-- C8 (amended): every request site other than the
semantics-preparation status poll and the two SSE streaming GETs
asserts `status_code == 200`, signalling `UnexpectedStatus` on any
other code and processing the response no further; those three sites
pass any response through unchecked. -/
theorem status_check_amended (s : RequestSite) (r : HttpResponse)
    (hs1 : s ≠ RequestSite.semanticsPreparationsStatusGet)
    (hs2 : s ≠ RequestSite.asksStreamingResultGet)
    (hs3 : s ≠ RequestSite.sqlAnswersStreamingGet)
    (hr : r.status_code ≠ 200) :
    siteHandle s r = Except.error "UnexpectedStatus"
    ∧ siteHandle RequestSite.semanticsPreparationsStatusGet r = Except.ok r
    ∧ siteHandle RequestSite.asksStreamingResultGet r = Except.ok r
    ∧ siteHandle RequestSite.sqlAnswersStreamingGet r = Except.ok r := by
  cases s <;> simp_all [siteHandle, assertStatus200]

/-- Concrete run of the amended C8 theorem: the `POST /v1/asks` site
rejects a 404 response. -/
theorem status_check_amended_witness :
    (HttpResponse.mk 404).status_code ≠ 200
    ∧ siteHandle RequestSite.asksPost { status_code := 404 }
        = Except.error "UnexpectedStatus" :=
  ⟨by decide,
    (status_check_amended RequestSite.asksPost { status_code := 404 }
      (by decide) (by decide) (by decide) (by decide)).1⟩

/-- Helper: joining a cons of strings prepends the head. -/
theorem string_join_cons (s : String) (l : List String) :
    String.join (s :: l) = s ++ String.join l := by
  simp only [String.join_eq]
  apply String.ext
  simp [String.append]

/-- Helper: the rendered-SQL list is as long as the step list. -/
theorem build_step_sqls_length (acc : List String) (steps : List Step) :
    (build_step_sqls acc steps).length = steps.length := by
  induction steps generalizing acc with
  | nil => rfl
  | cons st rest ih => simp [build_step_sqls, ih]

/-- Helper: the i-th rendered SQL, for any starting accumulator, is the
step's fragment rendered against the accumulator extended with the CTE
entries of the steps before it. -/
theorem build_step_sqls_getD (acc : List String) (steps : List Step) (i : Nat)
    (h : i < steps.length) :
    (build_step_sqls acc steps).getD i ""
      = render_step_sql (acc ++ (steps.take i).map cte_entry)
          ((steps.getD i ⟨"", "", ""⟩).sql) := by
  induction steps generalizing acc i with
  | nil => exact absurd h (by simp)
  | cons st rest ih =>
    cases i with
    | zero => simp [build_step_sqls]
    | succ i =>
      have h' : i < rest.length := by simpa using h
      simp only [build_step_sqls, List.getD_cons_succ, List.take_succ_cons,
        List.map_cons]
      rw [ih (acc ++ [cte_entry st]) i h']
      simp

/-- C4: cumulative SQL construction — the SQL rendered for step i is
the step's own fragment when i = 0, and otherwise a WITH clause
listing, in order, each prior step's CTE name bound to its fragment
(joined by `,\n`), followed by step i's own fragment. -/
theorem cumulative_sql_construction (steps : List Step) (i : Nat)
    (h : i < steps.length) :
    (build_step_sqls [] steps).getD i ""
      = if i = 0 then (steps.getD 0 ⟨"", "", ""⟩).sql
        else "WITH " ++ String.intercalate ",\n" ((steps.take i).map cte_entry)
          ++ "\n\n" ++ (steps.getD i ⟨"", "", ""⟩).sql := by
  rw [build_step_sqls_getD [] steps i h, List.nil_append]
  by_cases h0 : i = 0
  · subst h0
    simp [render_step_sql, String.empty_append]
  · rw [if_neg h0]
    have hsteps : steps ≠ [] := by
      intro hc
      rw [hc] at h
      exact absurd h (by simp)
    simp [render_step_sql, h0, hsteps]

/-- Concrete run of the C4 theorem on a three-step breakdown. -/
theorem cumulative_sql_construction_witness :
    2 < ([⟨"c0", "s0", "m0"⟩, ⟨"c1", "s1", "m1"⟩, ⟨"c2", "s2", "m2"⟩] : List Step).length
    ∧ (build_step_sqls [] [⟨"c0", "s0", "m0"⟩, ⟨"c1", "s1", "m1"⟩, ⟨"c2", "s2", "m2"⟩]).getD 2 ""
      = if 2 = 0 then
          (([⟨"c0", "s0", "m0"⟩, ⟨"c1", "s1", "m1"⟩, ⟨"c2", "s2", "m2"⟩] : List Step).getD 0 ⟨"", "", ""⟩).sql
        else "WITH "
          ++ String.intercalate ",\n"
              ((([⟨"c0", "s0", "m0"⟩, ⟨"c1", "s1", "m1"⟩, ⟨"c2", "s2", "m2"⟩] : List Step).take 2).map cte_entry)
          ++ "\n\n"
          ++ (([⟨"c0", "s0", "m0"⟩, ⟨"c1", "s1", "m1"⟩, ⟨"c2", "s2", "m2"⟩] : List Step).getD 2 ⟨"", "", ""⟩).sql :=
  ⟨by decide,
    cumulative_sql_construction
      [⟨"c0", "s0", "m0"⟩, ⟨"c1", "s1", "m1"⟩, ⟨"c2", "s2", "m2"⟩] 2 (by decide)⟩

/-- Helper: the buffer list is as long as the event list. -/
theorem display_response_stream_length (acc : String) (events : List SseEvent) :
    (display_response_stream acc events).length = events.length := by
  induction events generalizing acc with
  | nil => rfl
  | cons e rest ih => simp [display_response_stream, ih]

/-- Helper: the k-th buffer, for any starting content, is the starting
content followed by the concatenated messages of the first k+1
events. -/
theorem display_response_stream_getD (acc : String) (events : List SseEvent)
    (k : Nat) (h : k < events.length) :
    (display_response_stream acc events).getD k ""
      = acc ++ String.join ((events.take (k + 1)).map SseEvent.message) := by
  induction events generalizing acc k with
  | nil => exact absurd h (by simp)
  | cons e rest ih =>
    cases k with
    | zero =>
      simp [display_response_stream, string_join_cons, String.join,
        String.append_empty]
    | succ k =>
      have h' : k < rest.length := by simpa using h
      simp only [display_response_stream, List.getD_cons_succ,
        List.take_succ_cons, List.map_cons]
      rw [ih (acc ++ e.message) k h', string_join_cons, String.append_assoc]

/-- C7: the streaming-text consumer yields one buffer per event, and
the buffer after event k is the concatenation, in arrival order, of
the `message` fields of events 1 through k; the buffer sequence is as
long as the (finite) event stream, so it ends exactly when the stream
closes. -/
theorem streaming_buffer_concatenation (events : List SseEvent) :
    (display_response_stream "" events).length = events.length
    ∧ ∀ k, k < events.length →
        (display_response_stream "" events).getD k ""
          = String.join ((events.take (k + 1)).map SseEvent.message) := by
  refine ⟨display_response_stream_length "" events, fun k hk => ?_⟩
  rw [display_response_stream_getD "" events k hk, String.empty_append]

/-- Concrete run of the C7 theorem on a two-event stream. -/
theorem streaming_buffer_concatenation_witness :
    (display_response_stream "" [⟨"Hello "⟩, ⟨"world"⟩]).length
      = ([⟨"Hello "⟩, ⟨"world"⟩] : List SseEvent).length
    ∧ (display_response_stream "" [⟨"Hello "⟩, ⟨"world"⟩]).getD 1 ""
      = String.join ((([⟨"Hello "⟩, ⟨"world"⟩] : List SseEvent).take 2).map SseEvent.message) :=
  ⟨(streaming_buffer_concatenation [⟨"Hello "⟩, ⟨"world"⟩]).1,
    (streaming_buffer_concatenation [⟨"Hello "⟩, ⟨"world"⟩]).2 1 (by decide)⟩

/-- Helper: a correction list with no entry for a `before` value looks
up to `none` at it. -/
theorem lookupCorrection_eq_none (l : List Correction) (dp : Option DecisionPoint)
    (h : dp ∉ l.map Correction.before) : lookupCorrection l dp = none := by
  induction l with
  | nil => rfl
  | cons c rest ih =>
    simp only [List.map_cons, List.mem_cons] at h
    push_neg at h
    simp only [lookupCorrection]
    rw [if_neg (fun hc => h.1 hc.symm)]
    exact ih h.2

/-- Helper: full characterization of `on_change_user_correction` by
lookups, assuming the list holds at most one entry per `before` value:
at the decision point itself, a non-empty input maps it to that input,
and an empty input removes it unless it was absent (in which case an
empty-valued entry appears); every other `before` value is untouched. -/
theorem lookupCorrection_on_change (l : List Correction)
    (dp c : Option DecisionPoint) (v : String)
    (hnd : (l.map Correction.before).Nodup) :
    lookupCorrection (on_change_user_correction l dp v) c
      = if c = dp then
          (if v ≠ "" then some (nl_expression v)
           else if lookupCorrection l dp = none then some (nl_expression "")
           else none)
        else lookupCorrection l c := by
  induction l with
  | nil =>
    simp only [on_change_user_correction, lookupCorrection]
    by_cases hc : c = dp
    · subst hc
      by_cases hv : v = "" <;> simp [hv]
    · rw [if_neg (fun hcon => hc hcon.symm), if_neg hc]
  | cons e rest ih =>
    simp only [List.map_cons, List.nodup_cons] at hnd
    simp only [on_change_user_correction]
    by_cases he : e.before = dp
    · rw [if_pos he]
      by_cases hv : v = ""
      · subst hv
        simp only [ne_eq, not_true_eq_false, if_false, ite_not]
        by_cases hc : c = dp
        · subst hc
          rw [if_pos rfl]
          have hrest : lookupCorrection rest c = none :=
            lookupCorrection_eq_none rest c (he ▸ hnd.1)
          have hl : lookupCorrection (e :: rest) c = some e.after := by
            simp [lookupCorrection, he]
          simp [hrest, hl]
        · rw [if_neg hc]
          have hec : ¬ e.before = c := fun hcon => hc (hcon.symm.trans he)
          simp [lookupCorrection, hec]
      · simp only [ne_eq, hv, not_false_eq_true, if_true]
        by_cases hc : c = dp
        · subst hc
          simp [lookupCorrection, he, hv]
        · have hec : ¬ e.before = c := fun hcon => hc (hcon.symm.trans he)
          simp [lookupCorrection, hec, hc]
    · rw [if_neg he]
      by_cases hec : e.before = c
      · have hc : ¬ c = dp := fun hcon => he (hec.trans hcon)
        simp [lookupCorrection, hec, hc]
      · simp only [lookupCorrection, if_neg hec]
        rw [ih hnd.2]
        by_cases hc : c = dp
        · subst hc
          simp [lookupCorrection, hec]
        · simp [hc]

/-- Helper: any `before` value present after a merge was already
present or is the merged decision point. -/
theorem mem_map_before_on_change (l : List Correction)
    (dp : Option DecisionPoint) (v : String) (x : Option DecisionPoint)
    (hx : x ∈ (on_change_user_correction l dp v).map Correction.before) :
    x ∈ l.map Correction.before ∨ x = dp := by
  induction l with
  | nil =>
    simp only [on_change_user_correction, List.map_cons, List.map_nil,
      List.mem_singleton] at hx
    exact Or.inr hx
  | cons e rest ih =>
    simp only [on_change_user_correction] at hx
    by_cases he : e.before = dp
    · rw [if_pos he] at hx
      by_cases hv : v = ""
      · simp only [hv, ne_eq, not_true_eq_false, if_false] at hx
        exact Or.inl (by rw [List.map_cons]; exact List.mem_cons_of_mem _ hx)
      · simp only [ne_eq, hv, not_false_eq_true, if_true, List.map_cons,
          List.mem_cons] at hx
        rcases hx with hx | hx
        · exact Or.inl (by rw [List.map_cons, hx]; exact List.mem_cons_self _ _)
        · exact Or.inl (by rw [List.map_cons]; exact List.mem_cons_of_mem _ hx)
    · rw [if_neg he] at hx
      simp only [List.map_cons, List.mem_cons] at hx
      rcases hx with hx | hx
      · exact Or.inl (by rw [List.map_cons, hx]; exact List.mem_cons_self _ _)
      · rcases ih hx with h1 | h1
        · exact Or.inl (by rw [List.map_cons]; exact List.mem_cons_of_mem _ h1)
        · exact Or.inr h1

/-- Helper: the merge preserves the at-most-one-entry-per-`before`
invariant. -/
theorem nodup_map_before_on_change (l : List Correction)
    (dp : Option DecisionPoint) (v : String)
    (hnd : (l.map Correction.before).Nodup) :
    ((on_change_user_correction l dp v).map Correction.before).Nodup := by
  induction l with
  | nil => simp [on_change_user_correction]
  | cons e rest ih =>
    simp only [List.map_cons, List.nodup_cons] at hnd
    simp only [on_change_user_correction]
    by_cases he : e.before = dp
    · rw [if_pos he]
      by_cases hv : v = ""
      · simp only [hv, ne_eq, not_true_eq_false, if_false]
        exact hnd.2
      · simp only [ne_eq, hv, not_false_eq_true, if_true, List.map_cons]
        exact List.nodup_cons.mpr hnd
    · rw [if_neg he]
      simp only [List.map_cons, List.nodup_cons]
      refine ⟨fun hmem => ?_, ih hnd.2⟩
      rcases mem_map_before_on_change rest dp v e.before hmem with h1 | h1
      · exact hnd.1 h1
      · exact he h1

/-- C5: correction merge — given the at-most-one-entry invariant, a
non-empty input for an existing `before` replaces that entry's `after`;
an empty input for an existing `before` removes the entry; other
`before` values are untouched (so corrections for distinct decision
points accumulate independently); the invariant is preserved; and for
two distinct decision points the final lookups do not depend on the
order the two merges were applied in. -/
theorem correction_merge (l : List Correction)
    (dp dp2 c : Option DecisionPoint) (v v2 : String)
    (hnd : (l.map Correction.before).Nodup) :
    (v ≠ "" → lookupCorrection l dp ≠ none →
      lookupCorrection (on_change_user_correction l dp v) dp = some (nl_expression v))
    ∧ (lookupCorrection l dp ≠ none →
      lookupCorrection (on_change_user_correction l dp "") dp = none)
    ∧ (c ≠ dp →
      lookupCorrection (on_change_user_correction l dp v) c = lookupCorrection l c)
    ∧ ((on_change_user_correction l dp v).map Correction.before).Nodup
    ∧ (dp ≠ dp2 →
      lookupCorrection
          (on_change_user_correction (on_change_user_correction l dp v) dp2 v2) c
        = lookupCorrection
            (on_change_user_correction (on_change_user_correction l dp2 v2) dp v) c) := by
  refine ⟨?_, ?_, ?_, nodup_map_before_on_change l dp v hnd, ?_⟩
  · intro hv _
    rw [lookupCorrection_on_change l dp dp v hnd]
    simp [hv]
  · intro hsome
    rw [lookupCorrection_on_change l dp dp "" hnd]
    simp [hsome]
  · intro hc
    rw [lookupCorrection_on_change l dp c v hnd, if_neg hc]
  · intro hne
    have hne' : dp2 ≠ dp := Ne.symm hne
    rw [lookupCorrection_on_change _ dp2 c v2 (nodup_map_before_on_change l dp v hnd),
      lookupCorrection_on_change _ dp c v (nodup_map_before_on_change l dp2 v2 hnd),
      lookupCorrection_on_change l dp dp2 v hnd,
      lookupCorrection_on_change l dp c v hnd,
      lookupCorrection_on_change l dp2 dp v2 hnd,
      lookupCorrection_on_change l dp2 c v2 hnd]
    by_cases hc2 : c = dp2
    · subst hc2
      have hcd : ¬ c = dp := fun hcon => hne' hcon
      simp [hcd, hne']
    · by_cases hcd : c = dp
      · subst hcd
        simp [hc2, hne]
      · simp [hc2, hcd]

/-- Concrete run of the C5 theorem: replacing the correction for an
existing decision point with a new non-empty input. -/
theorem correction_merge_witness :
    (([⟨some ⟨"filter", "a"⟩, nl_expression "x"⟩] : List Correction).map
        Correction.before).Nodup
    ∧ lookupCorrection
        (on_change_user_correction [⟨some ⟨"filter", "a"⟩, nl_expression "x"⟩]
          (some ⟨"filter", "a"⟩) "y")
        (some ⟨"filter", "a"⟩) = some (nl_expression "y") :=
  ⟨by decide,
    (correction_merge [⟨some ⟨"filter", "a"⟩, nl_expression "x"⟩]
      (some ⟨"filter", "a"⟩) (some ⟨"filter", "b"⟩) (some ⟨"filter", "a"⟩)
      "y" "z" (by decide)).1 (by decide) (by decide)⟩

/-- C10: a change event with an empty input for a decision point that
has no entry in the step's correction list appends a new entry whose
`after` is the (empty-valued) natural-language expression, so clearing
an input does not always remove or skip an entry and empty-`after`
entries are reachable. -/
theorem empty_input_appends (l : List Correction) (dp : Option DecisionPoint)
    (h : lookupCorrection l dp = none) :
    on_change_user_correction l dp "" = l ++ [⟨dp, nl_expression ""⟩]
    ∧ lookupCorrection (on_change_user_correction l dp "") dp
      = some (nl_expression "") := by
  induction l with
  | nil => exact ⟨rfl, by simp [on_change_user_correction, lookupCorrection]⟩
  | cons e rest ih =>
    have he : ¬ e.before = dp := by
      intro hcon
      simp [lookupCorrection, hcon] at h
    have hrest : lookupCorrection rest dp = none := by
      simpa [lookupCorrection, he] using h
    simp only [on_change_user_correction, if_neg he, ne_eq, not_true_eq_false,
      if_false]
    refine ⟨by rw [(ih hrest).1]; simp, ?_⟩
    simp only [lookupCorrection, if_neg he]
    exact (ih hrest).2

/-- Concrete run of the C10 theorem: clearing the input for an absent
decision point appends an empty-valued entry. -/
theorem empty_input_appends_witness :
    lookupCorrection [⟨some ⟨"filter", "a"⟩, nl_expression "x"⟩]
        (some ⟨"sortings", "b"⟩) = none
    ∧ on_change_user_correction [⟨some ⟨"filter", "a"⟩, nl_expression "x"⟩]
        (some ⟨"sortings", "b"⟩) ""
      = [⟨some ⟨"filter", "a"⟩, nl_expression "x"⟩]
          ++ [⟨some ⟨"sortings", "b"⟩, nl_expression ""⟩] :=
  ⟨by decide,
    (empty_input_appends [⟨some ⟨"filter", "a"⟩, nl_expression "x"⟩]
      (some ⟨"sortings", "b"⟩) (by decide)).1⟩

/-- Helper: the loop's exit condition coincides with terminal-set
membership whenever the terminal test rejects the empty (falsy)
string. -/
theorem pollExit_eq (isT : String → Bool) (hempty : isT "" = false)
    (s : String) : pollExit isT s = isT s := by
  by_cases hs : s = "" <;> simp [pollExit, hs, hempty]

/-- Helper: one sleep of `POLLING_INTERVAL` follows every status GET:
the sleep trace is the poll count times the fixed interval. -/
theorem pollLoop_sleeps (isT : String → Bool) (statuses : Nat → String) :
    ∀ fuel k, (pollLoop isT statuses fuel k).sleeps
      = List.replicate (pollLoop isT statuses fuel k).polls POLLING_INTERVAL := by
  intro fuel
  induction fuel with
  | zero => intro k; rfl
  | succ fuel ih =>
    intro k
    simp only [pollLoop]
    by_cases hx : pollExit isT (statuses k) = true
    · simp [hx, List.replicate]
    · simp only [Bool.not_eq_true] at hx
      simp [hx, List.replicate_succ, ih (k + 1)]

/-- Helper: when the loop exits, it exits on a status satisfying the
exit condition. -/
theorem pollLoop_result_terminal (isT : String → Bool) (statuses : Nat → String) :
    ∀ fuel k j, (pollLoop isT statuses fuel k).result = some j →
      pollExit isT (statuses j) = true := by
  intro fuel
  induction fuel with
  | zero => intro k j h; exact absurd h (by simp [pollLoop])
  | succ fuel ih =>
    intro k j h
    simp only [pollLoop] at h
    by_cases hx : pollExit isT (statuses k) = true
    · rw [if_pos hx] at h
      have : k = j := by simpa using h
      exact this ▸ hx
    · simp only [Bool.not_eq_true] at hx
      rw [if_neg (by simp [hx])] at h
      exact ih (k + 1) j h

/-- Helper: the loop exits whenever some status within the fuel bound
satisfies the exit condition — it is never cut off by a retry limit. -/
theorem pollLoop_reaches (isT : String → Bool) (statuses : Nat → String) :
    ∀ fuel k j, k ≤ j → j < k + fuel → pollExit isT (statuses j) = true →
      ((pollLoop isT statuses fuel k).result).isSome = true := by
  intro fuel
  induction fuel with
  | zero => intro k j h1 h2 _; omega
  | succ fuel ih =>
    intro k j h1 h2 hj
    simp only [pollLoop]
    by_cases hx : pollExit isT (statuses k) = true
    · simp [hx]
    · simp only [Bool.not_eq_true] at hx
      rw [if_neg (by simp [hx])]
      have hkj : k ≠ j := fun hcon => by rw [hcon, hj] at hx; cases hx
      exact ih (k + 1) j (by omega) (by omega) hj

/-- Helper: with no terminal status in the sequence, the loop never
exits and polls once per unit of fuel — run forever in the limit. -/
theorem pollLoop_no_terminal (isT : String → Bool) (statuses : Nat → String)
    (h : ∀ n, pollExit isT (statuses n) = false) :
    ∀ fuel k, (pollLoop isT statuses fuel k).result = none
      ∧ (pollLoop isT statuses fuel k).polls = fuel := by
  intro fuel
  induction fuel with
  | zero => intro k; exact ⟨rfl, rfl⟩
  | succ fuel ih =>
    intro k
    simp only [pollLoop]
    rw [if_neg (by simp [h k])]
    exact ⟨(ih (k + 1)).1, by rw [(ih (k + 1)).2]⟩

/-- C6: the polling loop sleeps exactly the fixed `POLLING_INTERVAL`
(0.5 time-units) once per status request, terminates exactly when some
status response's value is in the terminal set (no retry limit or
overall timeout cuts it off), exits only on a terminal status, and if
the remote status sequence never contains a terminal value the loop
runs forever, consuming all fuel while polling; the hypothesis that
the terminal test rejects the empty string holds for all five
operations' terminal sets. -/
theorem polling_loop_spec (isT : String → Bool) (statuses : Nat → String)
    (hempty : isT "" = false) :
    (∀ fuel k, (pollLoop isT statuses fuel k).sleeps
      = List.replicate (pollLoop isT statuses fuel k).polls POLLING_INTERVAL)
    ∧ ((∃ fuel, ((pollLoop isT statuses fuel 0).result).isSome = true)
        ↔ (∃ n, isT (statuses n) = true))
    ∧ (∀ fuel k j, (pollLoop isT statuses fuel k).result = some j →
        isT (statuses j) = true)
    ∧ ((∀ n, isT (statuses n) = false) →
        ∀ fuel, (pollLoop isT statuses fuel 0).result = none
          ∧ (pollLoop isT statuses fuel 0).polls = fuel)
    ∧ (∀ op : PolledOp, isTerminalStatus op "" = false)
    ∧ POLLING_INTERVAL = 1 / 2 := by
  refine ⟨pollLoop_sleeps isT statuses, ?_, ?_, ?_, by intro op; cases op <;> rfl, rfl⟩
  · constructor
    · rintro ⟨fuel, hsome⟩
      rcases Option.isSome_iff_exists.mp hsome with ⟨j, hj⟩
      have := pollLoop_result_terminal isT statuses fuel 0 j hj
      rw [pollExit_eq isT hempty] at this
      exact ⟨j, this⟩
    · rintro ⟨n, hn⟩
      refine ⟨n + 1, pollLoop_reaches isT statuses (n + 1) 0 n (by omega) (by omega) ?_⟩
      rw [pollExit_eq isT hempty]
      exact hn
  · intro fuel k j h
    have := pollLoop_result_terminal isT statuses fuel k j h
    rw [pollExit_eq isT hempty] at this
    exact this
  · intro hnone fuel
    exact pollLoop_no_terminal isT statuses
      (fun n => by rw [pollExit_eq isT hempty]; exact hnone n) fuel 0

/-- Concrete run of the C6 theorem: polling the `ask` terminal set
over a sequence that finishes on the third poll. -/
theorem polling_loop_spec_witness :
    isTerminalStatus PolledOp.ask "" = false
    ∧ (pollLoop (isTerminalStatus PolledOp.ask) demoStatuses 5 0).sleeps
      = List.replicate (pollLoop (isTerminalStatus PolledOp.ask) demoStatuses 5 0).polls
          POLLING_INTERVAL :=
  ⟨by decide,
    (polling_loop_spec (isTerminalStatus PolledOp.ask) demoStatuses (by decide)).1 5 0⟩

/-- Helper: writing one reference leaves every other reference's value
unchanged. -/
theorem heapGet_heapSet_ne (h : Heap) (r j : Nat) (v : AskDetailsResult)
    (hne : j ≠ r) : heapGet (heapSet h r v) j = heapGet h j := by
  simp [heapGet, heapSet, List.getD_eq_getD_get?, List.get?_eq_getElem?,
    List.getElem?_set_ne (Ne.symm hne)]

/-- Helper: writing a valid reference stores the value there. -/
theorem heapGet_heapSet_self (h : Heap) (r : Nat) (v : AskDetailsResult)
    (hlt : r < h.length) : heapGet (heapSet h r v) r = v := by
  simp [heapGet, heapSet, List.getD_eq_getD_get?, List.get?_eq_getElem?,
    List.getElem?_set_eq_of_lt _ hlt]

/-- Helper: the correction-attaching loop writes only through the
copied reference, leaving every other reference's value unchanged. -/
theorem regenLoop_frame (dataRef : Nat) (cs : List (List Correction)) :
    ∀ (h : Heap) (i j : Nat), j ≠ dataRef →
      heapGet (regenLoop dataRef h i cs) j = heapGet h j := by
  induction cs with
  | nil => intro h i j _; rfl
  | cons c rest ih =>
    intro h i j hj
    simp only [regenLoop]
    by_cases hi : i < (heapGet h dataRef).steps.length
    · rw [if_pos hi, ih _ _ _ hj, heapGet_heapSet_ne _ _ _ _ hj]
    · rw [if_neg hi]

/-- Helper: through the copied reference, the loop's heap writes amount
to the pure per-step correction updates on the referenced value. -/
theorem regenLoop_get (dataRef : Nat) (cs : List (List Correction)) :
    ∀ (h : Heap) (i : Nat), dataRef < h.length →
      heapGet (regenLoop dataRef h i cs) dataRef
        = setCorrsFrom (heapGet h dataRef) i cs := by
  induction cs with
  | nil => intro h i _; rfl
  | cons c rest ih =>
    intro h i hlt
    simp only [regenLoop, setCorrsFrom]
    by_cases hi : i < (heapGet h dataRef).steps.length
    · rw [if_pos hi, if_pos hi,
        ih _ _ (by simpa [heapSet] using hlt),
        heapGet_heapSet_self _ _ _ hlt]
    · rw [if_neg hi, if_neg hi]

/-- C9: submitting a regeneration builds the corrected payload from a
deep copy — after `on_click_sql_regeneration_button` runs, the object
the original AskDetailsResult reference points to is unchanged, and
the payload reference holds the original value with the per-step
corrections applied to the copy. -/
theorem regeneration_deep_copy (h : Heap) (adrRef : Nat)
    (corrs : List (List Correction)) (hr : adrRef < h.length) :
    heapGet (on_click_sql_regeneration_button h adrRef corrs).1 adrRef
      = heapGet h adrRef
    ∧ heapGet (on_click_sql_regeneration_button h adrRef corrs).1
        (on_click_sql_regeneration_button h adrRef corrs).2
      = setCorrsFrom (heapGet h adrRef) 0 corrs := by
  have hcopy : heapGet (h ++ [heapGet h adrRef]) h.length = heapGet h adrRef := by
    rw [heapGet, List.getD_append_right _ _ _ _ (Nat.le_refl _)]
    simp [heapGet]
  constructor
  · show heapGet (regenLoop h.length (h ++ [heapGet h adrRef]) 0 corrs) adrRef
      = heapGet h adrRef
    rw [regenLoop_frame h.length corrs _ _ _ (Nat.ne_of_lt hr)]
    exact List.getD_append _ _ _ _ hr
  · show heapGet (regenLoop h.length (h ++ [heapGet h adrRef]) 0 corrs) h.length
      = setCorrsFrom (heapGet h adrRef) 0 corrs
    rw [regenLoop_get h.length corrs _ _ (by simp), hcopy]

/-- Concrete run of the C9 theorem: the original one-step
AskDetailsResult object is unchanged by building the regeneration
payload. -/
theorem regeneration_deep_copy_witness :
    0 < ([⟨"d", [⟨"cte1", "select 1", "sum", none⟩]⟩] : Heap).length
    ∧ heapGet
        (on_click_sql_regeneration_button
          [⟨"d", [⟨"cte1", "select 1", "sum", none⟩]⟩] 0
          [[⟨some ⟨"filter", "a"⟩, nl_expression "fix"⟩]]).1 0
      = heapGet ([⟨"d", [⟨"cte1", "select 1", "sum", none⟩]⟩] : Heap) 0 :=
  ⟨by decide,
    (regeneration_deep_copy [⟨"d", [⟨"cte1", "select 1", "sum", none⟩]⟩] 0
      [[⟨some ⟨"filter", "a"⟩, nl_expression "fix"⟩]] (by decide)).1⟩

/-- C3: the quoting wrapper returns a pair (sql', flag) — when the
dialect parser rejects the input (the transpiler raises), sql' is the
input unchanged, the flag is false, and re-applying the wrapper to
that returned SQL yields the same pair; when the parser accepts the
input, the flag is true and sql' is again parseable by the dialect.
The external sqlglot transpiler is abstracted by the hypotheses: it
succeeds exactly on parseable input, and its output parses. -/
theorem add_quotes_spec (transpile : String → Option String)
    (parses : String → Bool) (sql : String)
    (hdef : ∀ s, (transpile s).isSome = parses s)
    (hout : ∀ s q, transpile s = some q → parses q = true) :
    (parses sql = false →
      add_quotes transpile sql = (sql, false)
      ∧ add_quotes transpile (add_quotes transpile sql).1
        = add_quotes transpile sql)
    ∧ (parses sql = true →
      (add_quotes transpile sql).2 = true
      ∧ parses (add_quotes transpile sql).1 = true) := by
  cases htr : transpile sql with
  | none =>
    have hp : parses sql = false := by rw [← hdef]; simp [htr]
    refine ⟨fun _ => ?_, fun htrue => absurd (hp ▸ htrue) (by simp)⟩
    simp [add_quotes, htr]
  | some q =>
    have hp : parses sql = true := by rw [← hdef]; simp [htr]
    refine ⟨fun hfalse => absurd (hp ▸ hfalse) (by simp), fun _ => ?_⟩
    refine ⟨by simp [add_quotes, htr], ?_⟩
    simpa [add_quotes, htr] using hout sql q htr

/-- Concrete run of the C3 theorem on a sample dialect: an invalid
input comes back unchanged with a false flag, and a valid input comes
back parseable with a true flag. -/
theorem add_quotes_spec_witness :
    (demoParses "" = false ∧ add_quotes demoTranspile "" = ("", false))
    ∧ (demoParses "SELECT 1" = true
        ∧ (add_quotes demoTranspile "SELECT 1").2 = true
        ∧ demoParses (add_quotes demoTranspile "SELECT 1").1 = true) := by
  have hdef : ∀ s, (demoTranspile s).isSome = demoParses s := by
    intro s
    by_cases hs : s.isEmpty <;> simp [demoTranspile, demoParses, hs]
  have hout : ∀ s q, demoTranspile s = some q → demoParses q = true := by
    intro s q hq
    by_cases hs : s.isEmpty
    · simp [demoTranspile, hs] at hq
    · simp only [demoTranspile, if_neg hs] at hq
      rw [Option.some_inj] at hq
      subst hq
      simp [demoParses, hs]
  refine ⟨⟨by decide, ?_⟩, ⟨by decide, ?_, ?_⟩⟩
  · exact ((add_quotes_spec demoTranspile demoParses "" hdef hout).1 (by decide)).1
  · exact ((add_quotes_spec demoTranspile demoParses "SELECT 1" hdef hout).2 (by decide)).1
  · exact ((add_quotes_spec demoTranspile demoParses "SELECT 1" hdef hout).2 (by decide)).2

end WrenDemo
